import Mathlib

/-!
Verification development for the cody-cli agent orchestrator.

The TypeScript sources are shallowly embedded: pure functions become Lean
functions, stateful classes become explicit state passing over message
lists, the LLM endpoint and tool executors become oracle parameters, and
thrown exceptions become `Except` values.  JavaScript built-ins that the
source relies on (`JSON.parse`, `String.prototype.trim`, regular
expressions) are embedded from their ECMAScript semantics, restricted to
the constructs the source actually uses.
-/

/-! ## Character classes (ECMAScript semantics)

`isJsTrimWs` is the WhiteSpace ∪ LineTerminator set used by
`String.prototype.trim` and by the regex class `\s`.
`isJsonWs` is the (smaller) insignificant-whitespace set of the JSON
grammar used by `JSON.parse`. -/

def isJsTrimWs (c : Char) : Bool :=
  let n := c.toNat
  (9 ≤ n && n ≤ 13) || n = 32 || n = 160 || n = 5760 ||
    (8192 ≤ n && n ≤ 8202) || n = 8232 || n = 8233 || n = 8239 ||
    n = 8287 || n = 12288 || n = 65279

def isJsonWs (c : Char) : Bool :=
  let n := c.toNat
  n = 32 || n = 9 || n = 10 || n = 13

/-- JavaScript `String.prototype.trim` on a character list. -/
def trimJsList (cs : List Char) : List Char :=
  ((cs.dropWhile isJsTrimWs).reverse.dropWhile isJsTrimWs).reverse

/-- JavaScript `String.prototype.trim`. -/
def trimJs (s : String) : String := String.mk (trimJsList s.data)

/-- The `\x7b` character (left curly brace), named to keep string and char
literals free of braces. -/
def lbrace : Char := Char.ofNat 123

/-- The `\x7d` character (right curly brace). -/
def rbrace : Char := Char.ofNat 125

/-! ## JSON values and `JSON.parse`

`JsonValue` is the dynamic value universe `JSON.parse` can return.
Numbers are kept as a decimal mantissa/exponent pair (the claims under
verification never compare numbers produced from distinct literals). -/

inductive JsonValue where
  | null
  | bool (b : Bool)
  | num (mantissa : Int) (exponent : Int)
  | str (s : String)
  | arr (elems : List JsonValue)
  | obj (fields : List (String × JsonValue))

def JsonValue.isObj : JsonValue → Bool
  | .obj _ => true
  | _ => false

def skipJsonWs (cs : List Char) : List Char := cs.dropWhile isJsonWs

/-- Consume an expected literal keyword tail, e.g. `ull` after `n`. -/
def eatLit : List Char → List Char → Option (List Char)
  | [], cs => some cs
  | _ :: _, [] => none
  | l :: ls, c :: cs => if c = l then eatLit ls cs else none

def hexDigitVal (c : Char) : Option Nat :=
  let n := c.toNat
  if 48 ≤ n && n ≤ 57 then some (n - 48)
  else if 97 ≤ n && n ≤ 102 then some (n - 87)
  else if 65 ≤ n && n ≤ 70 then some (n - 55)
  else none

def escapeChar (c : Char) : Option Char :=
  if c = '"' then some '"'
  else if c = '\\' then some '\\'
  else if c = '/' then some '/'
  else if c = 'b' then some (Char.ofNat 8)
  else if c = 'f' then some (Char.ofNat 12)
  else if c = 'n' then some (Char.ofNat 10)
  else if c = 'r' then some (Char.ofNat 13)
  else if c = 't' then some (Char.ofNat 9)
  else none

def hex4v (h1 h2 h3 h4 : Char) : Option Nat :=
  match hexDigitVal h1, hexDigitVal h2, hexDigitVal h3, hexDigitVal h4 with
  | some a, some b, some c, some d => some (((a * 16 + b) * 16 + c) * 16 + d)
  | _, _, _, _ => none

/-- Body of a JSON string literal, after the opening quote.  UTF-16
surrogate pairs written with `\u` escapes are combined; an unpaired
surrogate (representable in a JavaScript string but not as a Unicode
scalar) is mapped to U+FFFD.  The fuel only guards termination: every
call consumes at least one character, so `parseStringRest` never runs
out. -/
def parseStringGo : Nat → List Char → List Char → Option (String × List Char)
  | 0, _, _ => none
  | Nat.succ _, _, [] => none
  | Nat.succ _, acc, '"' :: rest => some (String.mk acc.reverse, rest)
  | Nat.succ fuel, acc, '\\' :: 'u' :: h1 :: h2 :: h3 :: h4 :: rest =>
    match hex4v h1 h2 h3 h4 with
    | none => none
    | some n =>
      if 55296 ≤ n && n ≤ 56319 then
        match rest with
        | '\\' :: 'u' :: g1 :: g2 :: g3 :: g4 :: rest2 =>
          match hex4v g1 g2 g3 g4 with
          | some m =>
            if 56320 ≤ m && m ≤ 57343 then
              parseStringGo fuel
                (Char.ofNat ((n - 55296) * 1024 + (m - 56320) + 65536) :: acc) rest2
            else parseStringGo fuel (Char.ofNat 65533 :: acc) rest
          | none => parseStringGo fuel (Char.ofNat 65533 :: acc) rest
        | _ => parseStringGo fuel (Char.ofNat 65533 :: acc) rest
      else if 56320 ≤ n && n ≤ 57343 then
        parseStringGo fuel (Char.ofNat 65533 :: acc) rest
      else parseStringGo fuel (Char.ofNat n :: acc) rest
  | Nat.succ fuel, acc, '\\' :: e :: rest =>
    match escapeChar e with
    | some ec => parseStringGo fuel (ec :: acc) rest
    | none => none
  | Nat.succ fuel, acc, c :: rest =>
    if c.toNat < 32 then none else parseStringGo fuel (c :: acc) rest

def parseStringRest (acc cs : List Char) : Option (String × List Char) :=
  parseStringGo (cs.length + 1) acc cs

def digitsToNat (ds : List Char) : Nat :=
  ds.foldl (fun a c => a * 10 + (c.toNat - 48)) 0

def isAsciiDigit (c : Char) : Bool := 48 ≤ c.toNat && c.toNat ≤ 57

/-- A JSON number literal: `-? int frac? exp?`.  The result is the decimal
mantissa together with a base-10 exponent. -/
def parseNumber (cs : List Char) : Option (JsonValue × List Char) :=
  let (neg, cs1) : Bool × List Char :=
    match cs with
    | '-' :: rest => (true, rest)
    | _ => (false, cs)
  let intPart : Option (List Char × List Char) :=
    match cs1 with
    | '0' :: rest => some (['0'], rest)
    | c :: rest =>
      if isAsciiDigit c then some (c :: rest.takeWhile isAsciiDigit, rest.dropWhile isAsciiDigit)
      else none
    | [] => none
  match intPart with
  | none => none
  | some (ids, cs2) =>
    let (fds, cs3) : List Char × List Char :=
      match cs2 with
      | '.' :: rest => (rest.takeWhile isAsciiDigit, rest.dropWhile isAsciiDigit)
      | _ => ([], cs2)
    let fracPresent : Bool := match cs2 with | '.' :: _ => true | _ => false
    if fracPresent && fds.isEmpty then none
    else
      let expPart : Option (Int × List Char) :=
        match cs3 with
        | c :: rest =>
          if c = 'e' || c = 'E' then
            let (esign, rest1) : Bool × List Char :=
              match rest with
              | '+' :: r => (false, r)
              | '-' :: r => (true, r)
              | _ => (false, rest)
            let eds := rest1.takeWhile isAsciiDigit
            if eds.isEmpty then none
            else
              let ev : Int := Int.ofNat (digitsToNat eds)
              some (if esign then -ev else ev, rest1.dropWhile isAsciiDigit)
          else some (0, cs3)
        | [] => some (0, cs3)
      match expPart with
      | none => none
      | some (ev, cs4) =>
        let mant : Int := Int.ofNat (digitsToNat (ids ++ fds))
        some (.num (if neg then -mant else mant) (ev - Int.ofNat fds.length), cs4)

/-! The recursive-descent core of `JSON.parse`.  The `fuel` parameter only
serves Lean's termination checker: every unit of fuel spent corresponds to
at least one character of input consumed per two calls, so the budget
`2 * length + 4` chosen by `jsonParse` can never run out on real input. -/

mutual

def parseJsonValue : Nat → List Char → Option (JsonValue × List Char)
  | 0, _ => none
  | Nat.succ _, [] => none
  | Nat.succ fuel, c :: rest =>
    if c = 'n' then (eatLit ['u', 'l', 'l'] rest).map (fun r => (.null, r))
    else if c = 't' then (eatLit ['r', 'u', 'e'] rest).map (fun r => (.bool true, r))
    else if c = 'f' then (eatLit ['a', 'l', 's', 'e'] rest).map (fun r => (.bool false, r))
    else if c = '"' then (parseStringRest [] rest).map (fun p => (.str p.1, p.2))
    else if c = '[' then
      match skipJsonWs rest with
      | d :: r2 =>
        if d = ']' then some (.arr [], r2)
        else (parseJsonElems fuel (d :: r2)).map (fun p => (.arr p.1, p.2))
      | [] => none
    else if c = lbrace then
      match skipJsonWs rest with
      | d :: r2 =>
        if d = rbrace then some (.obj [], r2)
        else (parseJsonMembers fuel (d :: r2)).map (fun p => (.obj p.1, p.2))
      | [] => none
    else if c = '-' ∨ isAsciiDigit c = true then parseNumber (c :: rest)
    else none

def parseJsonElems : Nat → List Char → Option (List JsonValue × List Char)
  | 0, _ => none
  | Nat.succ fuel, cs =>
    match parseJsonValue fuel (skipJsonWs cs) with
    | none => none
    | some (v, r) =>
      match skipJsonWs r with
      | d :: r2 =>
        if d = ',' then (parseJsonElems fuel r2).map (fun p => (v :: p.1, p.2))
        else if d = ']' then some ([v], r2)
        else none
      | [] => none

def parseJsonMembers : Nat → List Char → Option (List (String × JsonValue) × List Char)
  | 0, _ => none
  | Nat.succ fuel, cs =>
    match skipJsonWs cs with
    | '"' :: r0 =>
      match parseStringRest [] r0 with
      | none => none
      | some (k, r1) =>
        match skipJsonWs r1 with
        | ':' :: r2 =>
          match parseJsonValue fuel (skipJsonWs r2) with
          | none => none
          | some (v, r3) =>
            match skipJsonWs r3 with
            | d :: r4 =>
              if d = ',' then (parseJsonMembers fuel r4).map (fun p => ((k, v) :: p.1, p.2))
              else if d = rbrace then some ([(k, v)], r4)
              else none
            | [] => none
        | _ => none
    | _ => none

end

/-- Embeds `JSON.parse`: parse one value, allowing surrounding insignificant
whitespace, and fail if input remains. -/
def jsonParse (s : String) : Option JsonValue :=
  match parseJsonValue (2 * s.length + 4) (skipJsonWs s.data) with
  | some (v, rest) => if (skipJsonWs rest).isEmpty then some v else none
  | none => none

/-! ## Argument parsing with recovery (src/agent/loop.ts, parseToolArguments) -/

/-- Character class `[^",\x7b\x7d\[\]]` from the repair regex in
`parseToolArguments`. -/
def repairValClass (c : Char) : Bool :=
  !(c = '"' || c = ',' || c = lbrace || c = rbrace || c = '[' || c = ']')

/-- One global pass of
`argsString.replace(/: ([^",\x7b\x7d\[\]]+)([,\x7d])/g, ': "$1"$2')`:
scan left to right; at each position try to match a colon, a space, a
non-empty run of the value class, and a comma or closing brace; on a match
emit the quoted replacement and resume after the match, otherwise emit the
character and advance by one.  The fuel starts at the list length and only
guards termination (every step consumes at least one character). -/
def fixUnquotedGo : Nat → List Char → List Char
  | 0, cs => cs
  | Nat.succ _, [] => []
  | Nat.succ fuel, c :: rest =>
    if c = ':' then
      match rest with
      | ' ' :: r1 =>
        let run := r1.takeWhile repairValClass
        let after := r1.dropWhile repairValClass
        if run.isEmpty then c :: fixUnquotedGo fuel rest
        else
          match after with
          | d :: r2 =>
            if d = ',' || d = rbrace then
              ':' :: ' ' :: '"' :: (run ++ '"' :: d :: fixUnquotedGo fuel r2)
            else c :: fixUnquotedGo fuel rest
          | [] => c :: fixUnquotedGo fuel rest
      | _ => c :: fixUnquotedGo fuel rest
    else c :: fixUnquotedGo fuel rest

def fixUnquoted (cs : List Char) : List Char := fixUnquotedGo cs.length cs

/-- Embeds `parseToolArguments` from src/agent/loop.ts: empty or blank payloads
yield the empty argument object; otherwise `JSON.parse` directly; on
failure retry once after the unquoted-value repair; on failure again fall
back to the empty argument object. -/
def parseToolArguments (argsString : String) : JsonValue :=
  if argsString = "" ∨ trimJs argsString = "" then .obj []
  else
    match jsonParse argsString with
    | some v => v
    | none =>
      match jsonParse (String.mk (fixUnquoted argsString.data)) with
      | some v => v
      | none => .obj []

/-! ## A small regular-expression engine

Just enough of ECMAScript regular expressions for the fixed dangerous-
command patterns of src/tools/runCommand.ts: character literals, the
classes `\s` and `.`, concatenation, alternation (only used for the
optional group `(ba)?`), star over a character class (`\s*`, `.*`,
`[0-9]*` style), and the word-boundary assertion `\b`.  The matcher
enumerates all match states, so greediness is irrelevant: only whether a
match exists is ever consumed (`RegExp.prototype.test`). -/

inductive RChar where
  | chr (c : Char)
  | ws
  | dot

/-- ECMAScript `\w` (word character) used by the `\b` assertion. -/
def isWordChar (c : Char) : Bool :=
  let n := c.toNat
  (65 ≤ n && n ≤ 90) || (97 ≤ n && n ≤ 122) || (48 ≤ n && n ≤ 57) || n = 95

def RChar.test : RChar → Char → Bool
  | .chr c, x => x = c
  | .ws, x => isJsTrimWs x
  | .dot, x =>
    let n := x.toNat
    !(n = 10 || n = 13 || n = 8232 || n = 8233)

inductive Regex where
  | eps
  | cls (k : RChar)
  | seq (a b : Regex)
  | alt (a b : Regex)
  | starCls (k : RChar)
  | wb

/-- The assertion `\b`: exactly one side of the current position is a word character. -/
def atWordBoundary (prev : Option Char) (s : List Char) : Bool :=
  let a := match prev with | none => false | some c => isWordChar c
  let b := match s with | [] => false | c :: _ => isWordChar c
  a != b

/-- All states reachable by `k*` from `(prev, s)`: zero or more characters
of class `k` consumed. -/
def starStates (k : RChar) (prev : Option Char) (s : List Char) :
    List (Option Char × List Char) :=
  (prev, s) ::
    match s with
    | [] => []
    | c :: rest => if k.test c then starStates k (some c) rest else []

/-- All `(previous char, remaining input)` states after matching `r` at
the given position. -/
def mmatch : Regex → Option Char → List Char → List (Option Char × List Char)
  | .eps, p, s => [(p, s)]
  | .cls k, _, s =>
    match s with
    | [] => []
    | c :: rest => if k.test c then [(some c, rest)] else []
  | .seq a b, p, s => (mmatch a p s).flatMap (fun st => mmatch b st.1 st.2)
  | .alt a b, p, s => mmatch a p s ++ mmatch b p s
  | .starCls k, p, s => starStates k p s
  | .wb, p, s => if atWordBoundary p s then [(p, s)] else []

/-- Search for a match starting at any position (the semantics of
`RegExp.prototype.test` for patterns without anchors). -/
def rsearch (r : Regex) : Option Char → List Char → Bool
  | p, s =>
    !(mmatch r p s).isEmpty ||
      match s with
      | [] => false
      | c :: rest => rsearch r (some c) rest

def rtest (r : Regex) (s : String) : Bool := rsearch r none s.data

/-- Concatenation of a list of regexes. -/
def rseq (l : List Regex) : Regex := l.foldr .seq .eps

/-- A literal string as a regex. -/
def rlit (s : String) : Regex := rseq (s.data.map (fun c => .cls (.chr c)))

/-- Pattern `\s+` -/
def wsPlus : Regex := .seq (.cls .ws) (.starCls .ws)

/-- Pattern `\s*` -/
def wsStar : Regex := .starCls .ws

/-- Pattern `.*` -/
def dotStar : Regex := .starCls .dot

/-! ## Command risk gate (src/tools/runCommand.ts) -/

structure BlockedRule where
  pattern : Regex
  reason : String

/-- The fixed dangerous-pattern table `BLOCKED_PATTERNS`. -/
def BLOCKED_PATTERNS : List BlockedRule := [
  -- Destructive file operations
  ⟨rseq [.wb, rlit "rm", wsPlus, rlit "-rf", .wb], "Recursive force delete"⟩,
  ⟨rseq [.wb, rlit "rm", wsPlus, rlit "-r", .wb], "Recursive delete"⟩,
  ⟨rseq [.wb, rlit "rm", wsPlus, rlit "-f", .wb], "Force delete"⟩,
  ⟨rseq [.wb, rlit "rmdir", .wb], "Directory removal"⟩,
  -- System commands
  ⟨rseq [.wb, rlit "sudo", .wb], "Superuser command"⟩,
  ⟨rseq [.wb, rlit "shutdown", .wb], "System shutdown"⟩,
  ⟨rseq [.wb, rlit "reboot", .wb], "System reboot"⟩,
  ⟨rseq [.wb, rlit "kill", wsPlus, rlit "-9", .wb], "Force kill process"⟩,
  ⟨rseq [.wb, rlit "killall", .wb], "Kill all processes"⟩,
  -- Disk operations
  ⟨rseq [.wb, rlit "dd", .wb], "Low-level disk operation"⟩,
  ⟨rseq [.wb, rlit "mkfs", .wb], "Filesystem creation"⟩,
  -- Network downloads piped to shell
  ⟨rseq [rlit "curl", dotStar, rlit "|", wsStar, .alt (rlit "ba") .eps, rlit "sh"],
    "Remote script execution"⟩,
  ⟨rseq [rlit "wget", dotStar, rlit "|", wsStar, .alt (rlit "ba") .eps, rlit "sh"],
    "Remote script execution"⟩,
  -- Git destructive operations
  ⟨rseq [.wb, rlit "git", wsPlus, rlit "push", wsPlus, dotStar, rlit "--force", .wb],
    "Force push"⟩,
  ⟨rseq [.wb, rlit "git", wsPlus, rlit "reset", wsPlus, rlit "--hard", .wb],
    "Hard reset"⟩]

/-- Embeds `checkBlocklist`: first rule whose pattern matches the command. -/
def checkBlocklist (command : String) : Option BlockedRule :=
  BLOCKED_PATTERNS.find? (fun blocked => rtest blocked.pattern command)

/-- Embeds `ToolResult` (src/tools/types.ts, with the optional `silent` flag used
by the risk gate). -/
structure ToolResult where
  success : Bool
  output : String
  silent : Option Bool := none

/-- Embeds `ApprovalResponse` (src/config.ts): the three approval-prompt
outcomes. -/
inductive ApprovalResponse where
  | yes
  | no
  | instruct (message : String)

/-- Observable outcome of `runCommandTool.execute`: the returned
`ToolResult`, whether the shell was actually invoked, and whether the
approval protocol was consulted. -/
structure RunOutcome where
  result : ToolResult
  executed : Bool
  askedApproval : Bool

/-- Embeds `runCommandTool.execute` (src/tools/runCommand.ts).  The underlying
`execAsync` shell invocation is abstracted as the oracle `execShell`; the
optional `runtimeSettings.approvalCallback` is the `approvalCallback`
parameter. -/
def runCommandExecute (approvalCallback : Option (String → String → ApprovalResponse))
    (execShell : String → ToolResult) (command : String) : RunOutcome :=
  match checkBlocklist command with
  | some blocked =>
    match approvalCallback with
    | some cb =>
      match cb command blocked.reason with
      | .no =>
        ⟨⟨false, "COMMAND NOT EXECUTED. User rejected the command \"" ++ command ++
          "\". Do NOT claim it was run.", some true⟩, false, true⟩
      | .instruct msg =>
        ⟨⟨false, "COMMAND NOT EXECUTED. User rejected and said: \"" ++ msg ++
          "\". Do NOT claim the command was run.", some true⟩, false, true⟩
      | .yes => ⟨execShell command, true, true⟩
    | none =>
      ⟨⟨false, "⚠️  BLOCKED: \"" ++ command ++ "\" - " ++ blocked.reason ++
        ". Run interactively for approval prompt.", none⟩, false, false⟩
  | none => ⟨execShell command, true, false⟩

/-! ## Substring search helpers for thinking-tag extraction -/

/-- Is `pat` an initial segment of `cs`? -/
def listStartsWith : List Char → List Char → Bool
  | [], _ => true
  | _ :: _, [] => false
  | p :: ps, c :: rest => p = c && listStartsWith ps rest

/-- First occurrence of `pat` in `cs`: the text before it and the text
after it (the occurrence itself removed). -/
def splitOnFirst (pat : List Char) : List Char → Option (List Char × List Char)
  | [] => if pat.isEmpty then some ([], []) else none
  | c :: rest =>
    if listStartsWith pat (c :: rest) then some ([], (c :: rest).drop pat.length)
    else (splitOnFirst pat rest).map (fun pr => (c :: pr.1, pr.2))

def thinkOpenTag : List Char := "<think>".data

def thinkCloseTag : List Char := "</think>".data

/-- Embeds `content.replace(/<think>[\s\S]*?<\/think>/g, "")`: remove every
open/close thinking block, lazily matched.  The fuel only guards
termination (each removed block is at least 15 characters long). -/
def removeThinkBlocksGo : Nat → List Char → List Char
  | 0, cs => cs
  | Nat.succ fuel, cs =>
    match splitOnFirst thinkOpenTag cs with
    | none => cs
    | some pr =>
      match splitOnFirst thinkCloseTag pr.2 with
      | none => cs
      | some pr2 => pr.1 ++ removeThinkBlocksGo fuel pr2.2

def removeThinkBlocks (cs : List Char) : List Char :=
  removeThinkBlocksGo cs.length cs

/-! ## ANSI color constants (src/utils/colors.ts) -/

def colorReset : String := "\x1b[0m"

def colorYellow : String := "\x1b[33m"

def colorBlue : String := "\x1b[34m"

def colorGreen : String := "\x1b[32m"

/-- Case 2 of `processThinkingTags`: `^([\s\S]*?)<\/think>` — everything
before the first closing tag is the reasoning; with no closing tag the
content is returned untouched with empty reasoning. -/
def matchPartialThink (content : String) : String × String :=
  match splitOnFirst thinkCloseTag content.data with
  | some pr => (trimJs (String.mk pr.1), trimJs (String.mk pr.2))
  | none => ("", content)

/-- Embeds `processThinkingTags` (src/agent/loop.ts).  The global mutable
`runtimeSettings.showThinking` toggle is passed explicitly.  Case 1 takes
the first full `<think>...</think>` block (lazy inner match) and strips
every block from the response; case 2, used when no full block exists,
treats everything before the first `</think>` as reasoning. -/
def processThinkingTags (showThinking : Bool) (content : String) : String :=
  let cs := content.data
  let tp : String × String :=
    match splitOnFirst thinkOpenTag cs with
    | some pr =>
      match splitOnFirst thinkCloseTag pr.2 with
      | some pr2 =>
        (trimJs (String.mk pr2.1), trimJs (String.mk (removeThinkBlocks cs)))
      | none => matchPartialThink content
    | none => matchPartialThink content
  if showThinking && tp.1 ≠ "" then
    colorYellow ++ "── Thinking ──" ++ colorReset ++ "\n" ++
      colorBlue ++ tp.1 ++ colorReset ++ "\n\n" ++
      colorGreen ++ "── Response ──" ++ colorReset ++ "\n" ++ tp.2
  else tp.2

/-! ## Conversation store (src/agent/conversation.ts) -/

inductive Role where
  | system
  | user
  | assistant
  | tool
deriving DecidableEq

/-- One entry of the OpenAI tool-call array on an assistant message. -/
structure ToolCall where
  id : String
  callType : String
  name : String
  arguments : String

/-- A `ChatCompletionMessageParam`, restricted to the fields the
orchestrator reads.  `content` is `none` when the model returned `null`
content alongside tool calls. -/
structure ChatMessage where
  role : Role
  content : Option String
  toolCallId : Option String := none
  toolCalls : List ToolCall := []

/-- Fixed number of messages beyond which `needsCompaction` fires. -/
def COMPACTION_THRESHOLD : Nat := 30

/-- Embeds `getSystemPrompt()`: the system preamble, parameterised by the
process working directory it interpolates. -/
def getSystemPrompt (cwd : String) : String :=
  "You are Cody, an open source coding CLI.\n\nWorking directory: " ++ cwd ++
    "\n\nIMPORTANT: You are an AGENT that takes ACTION. Don\x27t just describe what to do - DO IT.\n" ++
    "- When asked to fix/change/add something: READ the file, then WRITE the changes\n" ++
    "- When asked to refactor: UPDATE all related files, not just the one mentioned\n" ++
    "- When asked to create something: WRITE the file, don\x27t just show code\n" ++
    "- Only explain without acting if explicitly asked to \"explain\" or \"describe\"\n\n" ++
    "Workflow:\n1. List directory to understand project structure\n" ++
    "2. Read files before modifying them\n" ++
    "3. Write changes directly - don\x27t ask permission for code edits\n" ++
    "4. Run commands to verify (build, test, lint) when appropriate\n\n" ++
    "Be concise. Show what you changed, not what you\x27re going to change."

/-- Embeds `reset()`: the store holds exactly the system message. -/
def resetMessages (cwd : String) : List ChatMessage :=
  [⟨.system, some (getSystemPrompt cwd), none, []⟩]

/-- Embeds `addUserMessage(content)`. -/
def addUserMessage (msgs : List ChatMessage) (content : String) : List ChatMessage :=
  msgs ++ [⟨.user, some content, none, []⟩]

/-- Embeds `addAssistantMessage(message)`: pushes the given message unchanged. -/
def addAssistantMessage (msgs : List ChatMessage) (m : ChatMessage) : List ChatMessage :=
  msgs ++ [m]

/-- Embeds `addToolResults(results)`. -/
def addToolResults (msgs : List ChatMessage) (results : List ChatMessage) : List ChatMessage :=
  msgs ++ results

/-- Embeds `getMessageCount()`: `this.messages.length - 1`, the count excluding
the system prompt (an integer, as in JavaScript). -/
def getMessageCount (msgs : List ChatMessage) : Int :=
  (msgs.length : Int) - 1

/-- Embeds `needsCompaction()`: `this.messages.length > COMPACTION_THRESHOLD`. -/
def needsCompaction (msgs : List ChatMessage) : Bool :=
  msgs.length > COMPACTION_THRESHOLD

/-- Embeds `compact(client, model)`.  The single summarization request to the
completion endpoint is abstracted as the `summary` oracle value:
`response.choices?.[0]?.message?.content`, where `none` stands for a
missing choice/content.  The source guard `if (!summary)` also treats an
empty returned string as falsy. -/
def compact (msgs : List ChatMessage) (summary : Option String) : List ChatMessage :=
  if msgs.length ≤ 2 then msgs
  else
    let summaryText := summary.getD ""
    if summaryText = "" then msgs
    else
      match msgs with
      | [] => []
      | sys :: _ =>
        [sys, ⟨.user, some ("[CONTEXT FROM PREVIOUS WORK]\n" ++ summaryText ++
          "\n\n[Continue from here]"), none, []⟩]

/-- The states of the Conversation store reachable through its public
operations, starting from `reset()` (which the constructor calls). -/
inductive ConversationReachable : List ChatMessage → Prop where
  | reset (cwd : String) : ConversationReachable (resetMessages cwd)
  | user (msgs : List ChatMessage) (content : String) :
      ConversationReachable msgs → ConversationReachable (addUserMessage msgs content)
  | assistant (msgs : List ChatMessage) (m : ChatMessage) :
      ConversationReachable msgs → ConversationReachable (addAssistantMessage msgs m)
  | toolResults (msgs : List ChatMessage) (results : List ChatMessage) :
      ConversationReachable msgs → ConversationReachable (addToolResults msgs results)
  | compacted (msgs : List ChatMessage) (summary : Option String) :
      ConversationReachable msgs → ConversationReachable (compact msgs summary)

/-! ## Agent loop (src/agent/loop.ts) -/

/-- The `choice.message` of a completion response: text content and
tool-call requests. -/
structure AssistantMsg where
  content : Option String
  toolCalls : List ToolCall

/-- Modelled from the spec: `truncateOutput` lives in
src/tools/validation.ts, which is not part of the corpus; the spec says
the loop must "truncate oversized output to a fixed byte budget before it
re-enters context". -/
def truncateOutput (output : String) (maxChars : Nat) : String :=
  if output.length ≤ maxChars then output
  else String.mk (output.data.take maxChars)

/-- Steps 8-8c of `runAgentLoop`: process the tool calls of one assistant
turn in order, skipping entries whose declared type is not `"function"`,
and produce one tool message per executed call, with the tool output
truncated to 5000 characters.  `executeTool` is the Tool Registry
dispatch oracle. -/
def processToolCalls (executeTool : String → JsonValue → ToolResult) :
    List ToolCall → List ChatMessage
  | [] => []
  | tc :: rest =>
    if tc.callType = "function" then
      ⟨.tool,
        some (truncateOutput (executeTool tc.name (parseToolArguments tc.arguments)).output 5000),
        some tc.id, []⟩ :: processToolCalls executeTool rest
    else processToolCalls executeTool rest

/-- How one `runAgentLoop` invocation can end: a normal return with the
assistant text (step 7a), the safety exit at the iteration cap (step 11),
or a thrown error (malformed completion response). -/
inductive LoopOutcome where
  | done (text : String) (messages : List ChatMessage) (iterations : Nat)
  | capped (text : String) (messages : List ChatMessage) (iterations : Nat)
  | failed (err : String) (messages : List ChatMessage)

/-- Step 11 of `runAgentLoop`: on cap exhaustion return the last stored
message's content (thinking-tags processed) when it is a string, else a
fixed notice. -/
def capFallback (showThinking : Bool) (msgs : List ChatMessage) : String :=
  match msgs.getLast? with
  | some lastMessage =>
    match lastMessage.content with
    | some s => processThinkingTags showThinking s
    | none => "(agent stopped - too many iterations)"
  | none => "(agent stopped - too many iterations)"

/-- The main loop of `runAgentLoop` (steps 3-11), with `remaining`
iterations left before the cap.  `llm` is the completion-endpoint oracle:
it maps the message history to `choice.message`, `none` standing for a
malformed or empty response (which the source throws on). -/
def runLoopSteps (llm : List ChatMessage → Option AssistantMsg)
    (executeTool : String → JsonValue → ToolResult) (showThinking : Bool) :
    Nat → Nat → List ChatMessage → LoopOutcome
  | 0, iterationCount, msgs =>
    .capped (capFallback showThinking msgs) msgs iterationCount
  | Nat.succ remaining, iterationCount, msgs =>
    match llm msgs with
    | none => .failed "API returned malformed response - try again or check rate limits" msgs
    | some assistantMessage =>
      let msgs1 := addAssistantMessage msgs
        ⟨.assistant, assistantMessage.content, none, assistantMessage.toolCalls⟩
      if assistantMessage.toolCalls.isEmpty then
        .done (processThinkingTags showThinking (assistantMessage.content.getD "(no response)"))
          msgs1 (iterationCount + 1)
      else
        runLoopSteps llm executeTool showThinking remaining (iterationCount + 1)
          (addToolResults msgs1 (processToolCalls executeTool assistantMessage.toolCalls))

/-- Embeds `runAgentLoop(conversation, userMessage, options)`: append the user
message, then loop.  Attended mode caps at 10 iterations; boss mode has no
cap in the source (`Infinity`), rendered here by an explicit `bossFuel`
budget since Lean functions are total. -/
def runAgentLoop (llm : List ChatMessage → Option AssistantMsg)
    (executeTool : String → JsonValue → ToolResult) (showThinking : Bool)
    (bossMode : Bool) (bossFuel : Nat) (conversation : List ChatMessage)
    (userMessage : String) : LoopOutcome :=
  runLoopSteps llm executeTool showThinking (if bossMode then bossFuel else 10) 0
    (addUserMessage conversation userMessage)

/-! ## Boss mode (src/index.ts, startBossMode) -/

/-- The process-wide state `startBossMode` manipulates: the two
`runtimeSettings` flags, the stdin raw-mode flag (`undefined` on streams
that never had it set), and whether the ESC keypress listener is
attached. -/
structure BossState where
  bossMode : Bool
  bossInterrupted : Bool
  stdinRaw : Option Bool
  escListener : Bool

/-- Embeds `startBossMode(conversation)`.  The whole `while` loop (cycles of
`runAgentLoop` plus compaction, with per-cycle errors caught inside) is
abstracted as `loopBody`, which may mutate the state (the ESC handler
flips `bossInterrupted`) and either return normally or propagate an
exception; the `finally` block then runs unconditionally and the
exception, if any, is re-raised. -/
def startBossMode (isTTY : Bool)
    (loopBody : BossState → Except String Unit × BossState)
    (s0 : BossState) : Except String Unit × BossState :=
  -- Enable boss mode
  let s1 : BossState := { s0 with bossMode := true, bossInterrupted := false }
  -- Store original stdin state
  let wasRaw := s0.stdinRaw
  -- Set up ESC key listener
  let s2 := if isTTY then { s1 with stdinRaw := some true } else s1
  let s3 := { s2 with escListener := true }
  -- try { ... while loop ... }
  let br := loopBody s3
  -- finally: restore stdin state, disable boss mode
  let s4 := { br.2 with escListener := false }
  let s5 := if isTTY then { s4 with stdinRaw := some (wasRaw.getD false) } else s4
  let s6 := { s5 with bossMode := false, bossInterrupted := false }
  (br.1, s6)

/-! ## Helper lemmas -/

theorem dropWhile_head_not (p : Char → Bool) :
    ∀ (l : List Char) (c : Char) (r : List Char), l.dropWhile p = c :: r → p c = false := by
  intro l
  induction l with
  | nil => intro c r h; simp [List.dropWhile] at h
  | cons a l ih =>
    intro c r h
    by_cases hp : p a = true
    · rw [List.dropWhile_cons_of_pos hp] at h
      exact ih c r h
    · rw [List.dropWhile_cons_of_neg hp] at h
      cases h
      exact Bool.not_eq_true _ ▸ hp

theorem all_of_dropWhile_nil (p : Char → Bool) :
    ∀ (l : List Char), l.dropWhile p = [] → l.all p = true := by
  intro l
  induction l with
  | nil => intro _; rfl
  | cons a l ih =>
    intro h
    by_cases hp : p a = true
    · rw [List.dropWhile_cons_of_pos hp] at h
      simp [List.all_cons, hp, ih h]
    · rw [List.dropWhile_cons_of_neg hp] at h
      exact absurd h (List.cons_ne_nil a l)

theorem all_dropWhile (q p : Char → Bool) :
    ∀ (l : List Char), l.all q = true → (l.dropWhile p).all q = true := by
  intro l
  induction l with
  | nil => intro _; rfl
  | cons a l ih =>
    intro h
    rw [List.all_cons, Bool.and_eq_true] at h
    by_cases hp : p a = true
    · rw [List.dropWhile_cons_of_pos hp]
      exact ih h.2
    · rw [List.dropWhile_cons_of_neg hp]
      rw [List.all_cons, Bool.and_eq_true]
      exact ⟨h.1, h.2⟩

theorem all_ws_of_trim_empty (s : String) (h : trimJs s = "") :
    s.data.all isJsTrimWs = true := by
  have hdat : trimJsList s.data = [] := congrArg String.data h
  unfold trimJsList at hdat
  rw [List.reverse_eq_nil_iff] at hdat
  have hall : ((s.data.dropWhile isJsTrimWs).reverse).all isJsTrimWs = true :=
    all_of_dropWhile_nil _ _ hdat
  rw [List.all_reverse] at hall
  rcases hcase : s.data.dropWhile isJsTrimWs with _ | ⟨c, r⟩
  · exact all_of_dropWhile_nil _ _ hcase
  · rw [hcase] at hall
    have hc : isJsTrimWs c = false := dropWhile_head_not _ _ _ _ hcase
    rw [List.all_cons, Bool.and_eq_true] at hall
    rw [hall.1] at hc
    exact absurd hc (by simp)

theorem parseJsonValue_nil (fuel : Nat) : parseJsonValue fuel [] = none := by
  cases fuel <;> rfl

theorem parseJsonValue_none_of_ws (fuel : Nat) (c : Char) (r : List Char)
    (h1 : isJsTrimWs c = true) (h2 : isJsonWs c = false) :
    parseJsonValue fuel (c :: r) = none := by
  cases fuel with
  | zero => rfl
  | succ f =>
    have hn : ∀ (d : Char), isJsTrimWs d = false → ¬(c = d) := by
      intro d hd he
      rw [he, hd] at h1
      exact absurd h1 (by simp)
    have hdig : ¬(c = '-' ∨ isAsciiDigit c = true) := by
      rintro (rfl | hdig)
      · exact absurd h1 (by decide)
      · simp only [isJsTrimWs, Bool.or_eq_true, Bool.and_eq_true, decide_eq_true_eq] at h1
        simp only [isAsciiDigit, Bool.and_eq_true, decide_eq_true_eq] at hdig
        omega
    show parseJsonValue (f + 1) (c :: r) = none
    rw [parseJsonValue]
    rw [if_neg (hn 'n' (by decide)), if_neg (hn 't' (by decide)),
      if_neg (hn 'f' (by decide)), if_neg (hn '"' (by decide)),
      if_neg (hn '[' (by decide)), if_neg (hn lbrace (by decide)), if_neg hdig]

theorem jsonParse_none_of_all_ws (s : String) (h : s.data.all isJsTrimWs = true) :
    jsonParse s = none := by
  unfold jsonParse
  rcases hcase : skipJsonWs s.data with _ | ⟨c, r⟩
  · rw [parseJsonValue_nil]
  · have hc1 : isJsTrimWs c = true := by
      have := all_dropWhile isJsTrimWs isJsonWs s.data h
      unfold skipJsonWs at hcase
      rw [hcase, List.all_cons, Bool.and_eq_true] at this
      exact this.1
    have hc2 : isJsonWs c = false := dropWhile_head_not _ _ _ _ hcase
    rw [parseJsonValue_none_of_ws _ _ _ hc1 hc2]

/-! ## Claim theorems -/

/-- C7: for every payload string that parses as valid JSON,
`parseToolArguments` returns exactly the direct parse — the happy path is
lossless and performs no repair or transformation. -/
theorem parseToolArguments_lossless_on_valid_json (p : String) (v : JsonValue)
    (h : jsonParse p = some v) : parseToolArguments p = v := by
  have hguard : ¬(p = "" ∨ trimJs p = "") := by
    rintro (rfl | htrim)
    · rw [show jsonParse "" = none from rfl] at h
      exact Option.noConfusion h
    · rw [jsonParse_none_of_all_ws p (all_ws_of_trim_empty p htrim)] at h
      exact Option.noConfusion h
  unfold parseToolArguments
  rw [if_neg hguard, h]

/-- C7 witness: the concrete payload `\x7b"path": "hello.py"\x7d` parses as
valid JSON and `parseToolArguments` returns that parse unchanged. -/
theorem parseToolArguments_lossless_witness :
    parseToolArguments "\x7b\"path\": \"hello.py\"\x7d" =
      JsonValue.obj [("path", JsonValue.str "hello.py")] :=
  parseToolArguments_lossless_on_valid_json _ _ rfl

/-- C2 (failing part): on the flagship malformed payload
`\x7bpath: hello.py\x7d` the repair pass quotes the value exactly as the
source comment describes, but the member name stays unquoted, so the
re-parse fails as well and `parseToolArguments` returns the empty argument
set instead of the documented `\x7bpath: "hello.py"\x7d`.  The blank and
unrecoverable cases behave as claimed. -/
theorem parseToolArguments_recovery_cases :
    parseToolArguments "\x7bpath: hello.py\x7d" = JsonValue.obj [] ∧
    String.mk (fixUnquoted "\x7bpath: hello.py\x7d".data) = "\x7bpath: \"hello.py\"\x7d" ∧
    jsonParse "\x7bpath: \"hello.py\"\x7d" = none ∧
    parseToolArguments "" = JsonValue.obj [] ∧
    parseToolArguments "   " = JsonValue.obj [] ∧
    parseToolArguments "\x7bbad" = JsonValue.obj [] :=
  ⟨rfl, rfl, rfl, rfl, rfl, rfl⟩

/-- C3: with the visibility toggle off, `<think>reasoning</think>answer`
reduces to `answer`; with the toggle on the rendering contains the
reasoning strictly before the answer; and the opening-tag-less input
`reasoning</think>answer` behaves identically in both toggle states. -/
theorem processThinkingTags_cases :
    processThinkingTags false "<think>reasoning</think>answer" = "answer" ∧
    (∃ pre mid post,
      (processThinkingTags true "<think>reasoning</think>answer").data =
        pre ++ "reasoning".data ++ mid ++ "answer".data ++ post) ∧
    processThinkingTags false "reasoning</think>answer" =
      processThinkingTags false "<think>reasoning</think>answer" ∧
    processThinkingTags true "reasoning</think>answer" =
      processThinkingTags true "<think>reasoning</think>answer" :=
  ⟨rfl,
    ⟨"\x1b[33m── Thinking ──\x1b[0m\n\x1b[34m".data,
      "\x1b[0m\n\n\x1b[32m── Response ──\x1b[0m\n".data, [], by decide⟩,
    rfl, rfl⟩

/-- C10: valid-JSON payloads that are not objects — a number, an array,
`null` — come back from `parseToolArguments` as the parsed non-object
value (not a field record, not the empty argument set), and that value is
what the loop hands to tool execution. -/
theorem parseToolArguments_nonobject_passthrough :
    parseToolArguments "42" = JsonValue.num 42 0 ∧
    (parseToolArguments "42").isObj = false ∧
    parseToolArguments "[1,2]" = JsonValue.arr [JsonValue.num 1 0, JsonValue.num 2 0] ∧
    (parseToolArguments "[1,2]").isObj = false ∧
    parseToolArguments "null" = JsonValue.null ∧
    (parseToolArguments "null").isObj = false ∧
    ∀ executeTool : String → JsonValue → ToolResult,
      processToolCalls executeTool [⟨"call1", "function", "sometool", "42"⟩] =
        [⟨Role.tool,
          some (truncateOutput (executeTool "sometool" (JsonValue.num 42 0)).output 5000),
          some "call1", []⟩] :=
  ⟨rfl, rfl, rfl, rfl, rfl, rfl, fun _ => rfl⟩

/-- C8 counterexample: a store holding the system message plus exactly 30
further messages — `getMessageCount` (the source's `size()`) is 30, at
most the threshold — yet `needsCompaction()` already returns `true`,
because the source compares the raw list length (which includes the system
message) against 30. -/
theorem needsCompaction_at_size_30 :
    getMessageCount ((List.range 30).foldl (fun m _ => addUserMessage m "msg")
      (resetMessages "/")) = 30 ∧
    needsCompaction ((List.range 30).foldl (fun m _ => addUserMessage m "msg")
      (resetMessages "/")) = true :=
  ⟨by decide, by decide⟩

/-- C8 amended: `needsCompaction()` is true exactly when the raw stored
message count — including the system message — exceeds the threshold 30;
equivalently, exactly when `getMessageCount()` (which excludes the system
message) is at least 30. -/
theorem needsCompaction_iff_threshold (msgs : List ChatMessage) :
    needsCompaction msgs = decide (30 ≤ getMessageCount msgs) := by
  simp only [needsCompaction, COMPACTION_THRESHOLD, getMessageCount, decide_eq_decide]
  omega

/-- C5: `compact` is a no-op when fewer than two non-system messages are
stored; when at least two are stored and the summarization request returns
(non-empty) text the store collapses to the system message plus one
synthetic context message, so `size()` becomes 1 regardless of the prior
size; and when the request yields no text the history is untouched. -/
theorem compact_size_behavior :
    (∀ (msgs : List ChatMessage) (summary : Option String),
      getMessageCount msgs < 2 → compact msgs summary = msgs) ∧
    (∀ (msgs : List ChatMessage) (s : String),
      2 ≤ getMessageCount msgs → s ≠ "" →
        getMessageCount (compact msgs (some s)) = 1) ∧
    (∀ msgs : List ChatMessage, compact msgs none = msgs) ∧
    (∀ msgs : List ChatMessage, compact msgs (some "") = msgs) := by
  refine ⟨?_, ?_, ?_, ?_⟩
  · intro msgs summary h
    unfold compact
    rw [if_pos (by unfold getMessageCount at h; omega)]
  · intro msgs s h hs
    unfold compact
    rw [if_neg (by unfold getMessageCount at h; omega)]
    simp only [Option.getD_some]
    rw [if_neg hs]
    rcases msgs with _ | ⟨sys, rest⟩
    · unfold getMessageCount at h; simp at h
    · rfl
  · intro msgs
    unfold compact
    by_cases h : msgs.length ≤ 2
    · rw [if_pos h]
    · rw [if_neg h]
      simp only [Option.getD_none]
      rw [if_pos trivial]
  · intro msgs
    unfold compact
    by_cases h : msgs.length ≤ 2
    · rw [if_pos h]
    · rw [if_neg h]
      simp only [Option.getD_some]
      rw [if_pos trivial]

/-- C5 witness: the concrete behaviors at a one-message store (no-op), at
a store of two non-system messages with a returned summary (collapses to
size 1), and with a missing summary (untouched). -/
theorem compact_size_behavior_witness :
    compact (addUserMessage (resetMessages "/") "hi") (some "sum") =
      addUserMessage (resetMessages "/") "hi" ∧
    getMessageCount (compact (addUserMessage (addUserMessage (resetMessages "/") "a") "b")
      (some "sum")) = 1 ∧
    compact (addUserMessage (addUserMessage (resetMessages "/") "a") "b") none =
      addUserMessage (addUserMessage (resetMessages "/") "a") "b" :=
  ⟨compact_size_behavior.1 _ _ (by decide),
    compact_size_behavior.2.1 _ "sum" (by decide) (by decide),
    compact_size_behavior.2.2.1 _⟩

/-- C4: every store state reachable through reset, the three append
operations, and compaction starts with a system-role message — no
operation removes it or replaces it with a non-system message. -/
theorem conversation_starts_with_system (msgs : List ChatMessage)
    (h : ConversationReachable msgs) :
    ∃ sysm rest, msgs = sysm :: rest ∧ sysm.role = Role.system := by
  induction h with
  | reset cwd => exact ⟨_, [], rfl, rfl⟩
  | user msgs content _ ih =>
    obtain ⟨sysm, rest, heq, hrole⟩ := ih
    exact ⟨sysm, rest ++ [⟨.user, some content, none, []⟩], by rw [heq]; rfl, hrole⟩
  | assistant msgs m _ ih =>
    obtain ⟨sysm, rest, heq, hrole⟩ := ih
    exact ⟨sysm, rest ++ [m], by rw [heq]; rfl, hrole⟩
  | toolResults msgs results _ ih =>
    obtain ⟨sysm, rest, heq, hrole⟩ := ih
    exact ⟨sysm, rest ++ results, by rw [heq]; rfl, hrole⟩
  | compacted msgs summary _ ih =>
    obtain ⟨sysm, rest, heq, hrole⟩ := ih
    unfold compact
    by_cases hlen : msgs.length ≤ 2
    · rw [if_pos hlen]; exact ⟨sysm, rest, heq, hrole⟩
    · rw [if_neg hlen]
      by_cases hsum : summary.getD "" = ""
      · rw [if_pos hsum]; exact ⟨sysm, rest, heq, hrole⟩
      · rw [if_neg hsum, heq]
        exact ⟨sysm, _, rfl, hrole⟩

/-- C4 witness: a concrete reachable state — reset, one user message, one
assistant message, then a compaction with a returned summary — still
starts with the system message. -/
theorem conversation_starts_with_system_witness :
    ∃ sysm rest,
      compact (addAssistantMessage (addUserMessage (resetMessages "/tmp") "hello")
        ⟨Role.assistant, some "done", none, []⟩) (some "summary") = sysm :: rest ∧
      sysm.role = Role.system :=
  conversation_starts_with_system _
    (ConversationReachable.compacted _ (some "summary")
      (ConversationReachable.assistant _ _
        (ConversationReachable.user _ "hello"
          (ConversationReachable.reset "/tmp"))))

theorem listStartsWith_of_append (pat : List Char) :
    ∀ (lit x : List Char), listStartsWith pat lit = true →
      listStartsWith pat (lit ++ x) = true := by
  induction pat with
  | nil => intro lit x _; rfl
  | cons p ps ih =>
    intro lit x h
    cases lit with
    | nil => simp [listStartsWith] at h
    | cons c cs =>
      simp only [listStartsWith, Bool.and_eq_true, decide_eq_true_eq] at h
      simp only [List.cons_append, listStartsWith, Bool.and_eq_true, decide_eq_true_eq]
      exact ⟨h.1, ih cs x h.2⟩

/-- C1: `rm -rf /tmp/x` matches a dangerous pattern (recursive force
delete) while `ls -la` matches none and executes directly without
consulting the approval protocol; a Reject answer for any gated command
yields a `success:false`, `silent:true` result whose text opens with
"COMMAND NOT EXECUTED" and the shell is never invoked; and a gated
command with no approval protocol configured is blocked without
execution. -/
theorem run_command_risk_gate :
    (checkBlocklist "rm -rf /tmp/x").map (fun b => b.reason) = some "Recursive force delete" ∧
    checkBlocklist "ls -la" = none ∧
    (∀ (approvalCallback : Option (String → String → ApprovalResponse))
        (execShell : String → ToolResult),
      runCommandExecute approvalCallback execShell "ls -la" =
        ⟨execShell "ls -la", true, false⟩) ∧
    (∀ (command : String) (execShell : String → ToolResult)
        (cb : String → String → ApprovalResponse),
      (checkBlocklist command).isSome = true →
      (∀ x y, cb x y = ApprovalResponse.no) →
      (runCommandExecute (some cb) execShell command).result.success = false ∧
      (runCommandExecute (some cb) execShell command).result.silent = some true ∧
      listStartsWith "COMMAND NOT EXECUTED".data
        ((runCommandExecute (some cb) execShell command).result.output).data = true ∧
      (runCommandExecute (some cb) execShell command).executed = false) ∧
    (∀ (command : String) (execShell : String → ToolResult),
      (checkBlocklist command).isSome = true →
      (runCommandExecute none execShell command).result.success = false ∧
      (runCommandExecute none execShell command).executed = false) := by
  refine ⟨rfl, rfl, fun _ _ => rfl, ?_, ?_⟩
  · intro command execShell cb hsome hno
    rcases hcb : checkBlocklist command with _ | rule
    · rw [hcb] at hsome; exact absurd hsome (by simp)
    · simp only [runCommandExecute, hcb, hno]
      refine ⟨trivial, trivial, ?_, trivial⟩
      rw [String.data_append, String.data_append, List.append_assoc]
      exact listStartsWith_of_append _ _ _ (by decide)
  · intro command execShell hsome
    rcases hcb : checkBlocklist command with _ | rule
    · rw [hcb] at hsome; exact absurd hsome (by simp)
    · simp only [runCommandExecute, hcb]
      exact ⟨trivial, trivial⟩

/-- C1 witness: the gate's behavior at the concrete gated command
`rm -rf /tmp/x` under a rejecting approval protocol and under no
protocol, and at the ungated `ls -la`. -/
theorem run_command_risk_gate_witness :
    (runCommandExecute (some (fun _ _ => ApprovalResponse.no))
      (fun _ => ⟨true, "ran", none⟩) "rm -rf /tmp/x").result.success = false ∧
    (runCommandExecute (some (fun _ _ => ApprovalResponse.no))
      (fun _ => ⟨true, "ran", none⟩) "rm -rf /tmp/x").result.silent = some true ∧
    listStartsWith "COMMAND NOT EXECUTED".data
      ((runCommandExecute (some (fun _ _ => ApprovalResponse.no))
        (fun _ => ⟨true, "ran", none⟩) "rm -rf /tmp/x").result.output).data = true ∧
    (runCommandExecute (some (fun _ _ => ApprovalResponse.no))
      (fun _ => ⟨true, "ran", none⟩) "rm -rf /tmp/x").executed = false ∧
    (runCommandExecute none (fun _ => ⟨true, "ran", none⟩) "rm -rf /tmp/x").executed = false ∧
    runCommandExecute none (fun _ => ⟨true, "ran", none⟩) "ls -la" =
      ⟨⟨true, "ran", none⟩, true, false⟩ := by
  have h4 := run_command_risk_gate.2.2.2.1 "rm -rf /tmp/x" (fun _ => ⟨true, "ran", none⟩)
    (fun _ _ => ApprovalResponse.no) (by decide) (fun _ _ => rfl)
  have h5 := run_command_risk_gate.2.2.2.2 "rm -rf /tmp/x" (fun _ => ⟨true, "ran", none⟩)
    (by decide)
  have h3 := run_command_risk_gate.2.2.1 none (fun _ => ⟨true, "ran", none⟩)
  exact ⟨h4.1, h4.2.1, h4.2.2.1, h4.2.2.2, h5.2, h3⟩

theorem runLoopSteps_always_tools (llm : List ChatMessage → Option AssistantMsg)
    (executeTool : String → JsonValue → ToolResult) (showThinking : Bool)
    (h : ∀ msgs, ∃ am, llm msgs = some am ∧ am.toolCalls ≠ []) :
    ∀ (remaining iterationCount : Nat) (msgs : List ChatMessage),
      ∃ finalMsgs,
        runLoopSteps llm executeTool showThinking remaining iterationCount msgs =
          .capped (capFallback showThinking finalMsgs) finalMsgs (iterationCount + remaining) := by
  intro remaining
  induction remaining with
  | zero =>
    intro iterationCount msgs
    exact ⟨msgs, by simp [runLoopSteps]⟩
  | succ n ih =>
    intro iterationCount msgs
    obtain ⟨am, ham, htc⟩ := h msgs
    have hne : am.toolCalls.isEmpty = false := by
      rcases hlist : am.toolCalls with _ | ⟨tc, rest⟩
      · exact absurd hlist htc
      · rfl
    obtain ⟨finalMsgs, hfm⟩ := ih (iterationCount + 1)
      (addToolResults
        (addAssistantMessage msgs ⟨.assistant, am.content, none, am.toolCalls⟩)
        (processToolCalls executeTool am.toolCalls))
    refine ⟨finalMsgs, ?_⟩
    rw [show runLoopSteps llm executeTool showThinking (n + 1) iterationCount msgs =
      match llm msgs with
      | none => .failed "API returned malformed response - try again or check rate limits" msgs
      | some assistantMessage =>
        let msgs1 := addAssistantMessage msgs
          ⟨.assistant, assistantMessage.content, none, assistantMessage.toolCalls⟩
        if assistantMessage.toolCalls.isEmpty then
          .done (processThinkingTags showThinking (assistantMessage.content.getD "(no response)"))
            msgs1 (iterationCount + 1)
        else
          runLoopSteps llm executeTool showThinking n (iterationCount + 1)
            (addToolResults msgs1 (processToolCalls executeTool assistantMessage.toolCalls))
      from rfl]
    rw [ham]
    simp only [hne, Bool.false_eq_true, if_false]
    rw [hfm]
    have : iterationCount + 1 + n = iterationCount + (n + 1) := by omega
    rw [this]

/-- C6: in attended (non-boss) mode, when every completion response
carries tool calls, `runAgentLoop` performs exactly 10 cycles, then
returns normally through the safety exit with the most recent textual
content found in the store. -/
theorem attended_loop_caps_at_10 (llm : List ChatMessage → Option AssistantMsg)
    (executeTool : String → JsonValue → ToolResult) (showThinking : Bool)
    (bossFuel : Nat) (conversation : List ChatMessage) (userMessage : String)
    (h : ∀ msgs, ∃ am, llm msgs = some am ∧ am.toolCalls ≠ []) :
    ∃ finalMsgs,
      runAgentLoop llm executeTool showThinking false bossFuel conversation userMessage =
        .capped (capFallback showThinking finalMsgs) finalMsgs 10 := by
  unfold runAgentLoop
  simpa using runLoopSteps_always_tools llm executeTool showThinking h 10 0
    (addUserMessage conversation userMessage)

/-- C6 witness: a concrete endpoint oracle that always requests one tool
call drives the attended loop into the 10-cycle safety exit. -/
theorem attended_loop_caps_at_10_witness :
    ∃ finalMsgs,
      runAgentLoop
        (fun _ => some ⟨some "working", [⟨"id1", "function", "list_directory", "\x7b\x7d"⟩]⟩)
        (fun _ _ => ⟨true, "ok", none⟩) false false 0 (resetMessages "/") "go" =
        .capped (capFallback false finalMsgs) finalMsgs 10 :=
  attended_loop_caps_at_10 _ _ _ _ _ _
    (fun _ => ⟨⟨some "working", [⟨"id1", "function", "list_directory", "\x7b\x7d"⟩]⟩,
      rfl, List.cons_ne_nil _ _⟩)

/-- C9: however the boss-mode loop body ends — normal interruption or a
propagating exception — and whatever it does to the interrupt flag, the
`finally` cleanup removes the ESC listener, restores the prior stdin
raw-mode state, and clears both the autonomous-mode and interrupt flags;
the loop body's outcome (including a thrown error) passes through
unchanged. -/
theorem boss_mode_cleanup (isTTY : Bool)
    (loopBody : BossState → Except String Unit × BossState) (s0 : BossState)
    (hpreserve : ∀ s, ((loopBody s).2).stdinRaw = s.stdinRaw)
    (hTTY : isTTY = true → s0.stdinRaw.isSome = true) :
    (startBossMode isTTY loopBody s0).2.bossMode = false ∧
    (startBossMode isTTY loopBody s0).2.bossInterrupted = false ∧
    (startBossMode isTTY loopBody s0).2.escListener = false ∧
    (startBossMode isTTY loopBody s0).2.stdinRaw = s0.stdinRaw ∧
    ∃ entered, (startBossMode isTTY loopBody s0).1 = (loopBody entered).1 := by
  unfold startBossMode
  cases isTTY with
  | true =>
    obtain ⟨b, hb⟩ := Option.isSome_iff_exists.mp (hTTY rfl)
    simp only [if_true, reduceIte]
    exact ⟨trivial, trivial, trivial, by rw [hb]; rfl, ⟨_, rfl⟩⟩
  | false =>
    simp only [Bool.false_eq_true, if_false, reduceIte]
    refine ⟨trivial, trivial, trivial, ?_, ⟨_, rfl⟩⟩
    exact hpreserve _

/-- C9 witness: a loop body that throws, on a TTY whose stdin raw mode was
previously off, still gets fully cleaned up after, and the exception
propagates. -/
theorem boss_mode_cleanup_witness :
    (startBossMode true (fun s => (Except.error "boom", s))
      ⟨false, true, some false, false⟩).2.bossMode = false ∧
    (startBossMode true (fun s => (Except.error "boom", s))
      ⟨false, true, some false, false⟩).2.bossInterrupted = false ∧
    (startBossMode true (fun s => (Except.error "boom", s))
      ⟨false, true, some false, false⟩).2.escListener = false ∧
    (startBossMode true (fun s => (Except.error "boom", s))
      ⟨false, true, some false, false⟩).2.stdinRaw = some false ∧
    ∃ entered, (startBossMode true (fun s => (Except.error "boom", s))
      ⟨false, true, some false, false⟩).1 =
        ((fun (s : BossState) => (Except.error "boom", s)) entered).1 :=
  boss_mode_cleanup true (fun s => (Except.error "boom", s))
    ⟨false, true, some false, false⟩ (fun _ => rfl) (fun _ => rfl)
